import Mathlib

/-!
Shallow embedding of the two FastAPI modules of this repository:

* `MainApi` embeds `src/apis/main.py` — a user CRUD over an in-memory list
  with caller-assigned integer ids (`crear_user`, `actualizar_usuario`,
  `eliminar_usuario`, `get_users`).
* `BlogApi` embeds `src/apis/blog_api.py` — users, posts and comments stored
  in insertion-ordered dictionaries (modelled as insertion-ordered
  association lists keyed by the id string), with pagination following
  Python slice semantics.

Mutating endpoints are modelled by explicit state passing: each operation
returns the HTTP-level result (`Except HTTPError α` mirroring
`raise HTTPException`) together with the collection(s) after the call, so an
error leaves the collections unchanged exactly as a Python `raise` before
any mutation does.  Timestamps (`datetime.now()`) and generated uuid ids are
modelled as explicit parameters, since they are external inputs to the pure
logic.
-/

/-- An `HTTPException(status_code, detail)` raised by an endpoint. -/
structure HTTPError where
  status : Nat
  detail : String
deriving DecidableEq, Repr

/-- Python slice index normalisation: a negative index counts from the end
of the sequence, and indices are clamped to `[0, len]`. -/
def pyNorm (n : Int) (len : Nat) : Nat :=
  if n < 0 then ((len : Int) + n).toNat else min n.toNat len

/-- `l[a : b]` in Python: the elements at normalised positions `[a', b')`. -/
def pySlice (l : List α) (a b : Int) : List α :=
  (l.take (pyNorm b l.length)).drop (pyNorm a l.length)

/-- `needle in hay` on lists of characters, as Python string containment:
some tail of `hay` starts with `needle`. -/
def strInAux (needle : List Char) : List Char → Bool
  | [] => needle.isEmpty
  | c :: cs => needle.isPrefixOf (c :: cs) || strInAux needle cs

/-- Python `needle in hay` for strings (substring containment). -/
def strIn (needle hay : String) : Bool :=
  strInAux needle.toList hay.toList

/-- Python `s.lower()` (character-wise lowercasing); stated over the
character list so that it evaluates by reduction. -/
def pyLower (s : String) : String :=
  ⟨s.data.map Char.toLower⟩

theorem pyLower_eq_map (s : String) : pyLower s = String.map Char.toLower s := by
  rw [String.map_eq]
  rfl

namespace MainApi

/-- The `User` model of `main.py`: caller-assigned integer id. -/
structure User where
  id : Int
  name : String
  email : String
deriving DecidableEq, Repr

/-- The in-memory `user_db` list. -/
abbrev UserDb := List User

/-- `GET /users`: returns the whole list. -/
def get_users (db : UserDb) : List User := db

/-- `POST /users` (`crear_user`): rejects a duplicate id with HTTP 400,
otherwise appends the caller-supplied record. -/
def crear_user (db : UserDb) (user : User) : Except HTTPError User × UserDb :=
  if db.any (fun u => u.id == user.id) then
    (.error ⟨400, "El ID ya existe"⟩, db)
  else
    (.ok user, db ++ [user])

/-- Replace the first record whose id is `uid` by `upd`; `none` if absent. -/
def replaceById : UserDb → Int → User → Option UserDb
  | [], _, _ => none
  | u :: rest, uid, upd =>
    if u.id == uid then some (upd :: rest)
    else (replaceById rest uid upd).map (u :: ·)

/-- `PUT /users/{user_id}` (`actualizar_usuario`): full replacement of the
record whose id is `user_id` by the caller-supplied record. -/
def actualizar_usuario (db : UserDb) (user_id : Int) (update_user : User) :
    Except HTTPError User × UserDb :=
  match replaceById db user_id update_user with
  | some db' => (.ok update_user, db')
  | none => (.error ⟨404, "Usuario no encontrado"⟩, db)

/-- Remove the first record whose id is `uid`; `none` if absent. -/
def removeById : UserDb → Int → Option UserDb
  | [], _ => none
  | u :: rest, uid =>
    if u.id == uid then some rest
    else (removeById rest uid).map (u :: ·)

/-- `DELETE /users/{user_id}` (`eliminar_usuario`). -/
def eliminar_usuario (db : UserDb) (user_id : Int) :
    Except HTTPError String × UserDb :=
  match removeById db user_id with
  | some db' => (.ok "Usuario eliminado correctamente", db')
  | none => (.error ⟨404, "Usuario no encontrado"⟩, db)

/-- Stored ids are pairwise distinct. -/
def idsNodup (db : UserDb) : Prop :=
  (db.map User.id).Nodup

instance (db : UserDb) : Decidable (idsNodup db) := by
  unfold idsNodup; infer_instance

/-- One endpoint call of the caller-assigned-id variant. -/
inductive Op where
  | create (u : User)
  | update (uid : Int) (u : User)
  | delete (uid : Int)
deriving DecidableEq, Repr

/-- The collection after one endpoint call (an HTTP error leaves it as is). -/
def runOp (db : UserDb) : Op → UserDb
  | .create u => (crear_user db u).2
  | .update uid u => (actualizar_usuario db uid u).2
  | .delete uid => (eliminar_usuario db uid).2

/-- The collection after a sequence of calls starting from the empty list. -/
def run (ops : List Op) : UserDb :=
  ops.foldl runOp []

/-- An operation that is not a full-replace update. -/
def Op.isCreateOrDelete : Op → Prop
  | .update _ _ => False
  | _ => True

instance (op : Op) : Decidable op.isCreateOrDelete := by
  cases op <;> simp [Op.isCreateOrDelete] <;> infer_instance

end MainApi

namespace BlogApi

/-- The stored `User` record of `blog_api.py` (the `password` kwarg passed to
the `User` model is dropped by pydantic, which ignores extra fields). -/
structure User where
  id : String
  username : String
  email : String
  full_name : Option String
  created_at : Nat
  is_active : Bool
deriving DecidableEq, Repr

/-- The `UserCreate` request body. -/
structure UserCreate where
  username : String
  email : String
  full_name : Option String
  password : String
deriving DecidableEq, Repr

/-- The stored `Post` record. -/
structure Post where
  id : String
  title : String
  content : String
  tags : List String
  author_id : String
  created_at : Nat
  updated_at : Nat
  likes : Nat
  views : Nat
deriving DecidableEq, Repr

/-- The `PostCreate` request body. -/
structure PostCreate where
  title : String
  content : String
  tags : List String
  author_id : String
deriving DecidableEq, Repr

/-- The `PostUpdate` request body: absent fields mean "unchanged". -/
structure PostUpdate where
  title : Option String
  content : Option String
  tags : Option (List String)
deriving DecidableEq, Repr

/-- The stored `Comment` record. -/
structure Comment where
  id : String
  content : String
  post_id : String
  author_id : String
  created_at : Nat
deriving DecidableEq, Repr

/-- A Python dict as an insertion-ordered association list. -/
abbrev Db (α : Type) := List (String × α)

abbrev UsersDb := Db User
abbrev PostsDb := Db Post
abbrev CommentsDb := Db Comment

/-- `key in d` / `d[key]` for a dict: the value stored at `key`. -/
def lookup (db : Db α) (k : String) : Option α :=
  (db.find? (fun e => e.1 == k)).map Prod.snd

/-- `d[key] = v` for an existing key: replaces the value in place. -/
def setEntry (db : Db α) (k : String) (v : α) : Db α :=
  db.map (fun e => if e.1 == k then (e.1, v) else e)

/-- `del d[key]`: removes the entry stored at `key`. -/
def eraseKey (db : Db α) (k : String) : Db α :=
  db.filter (fun e => e.1 != k)

/-- The dict keys are pairwise distinct (always true of a Python dict). -/
def keysNodup (db : Db α) : Prop :=
  (db.map Prod.fst).Nodup

instance (db : Db α) : Decidable (keysNodup db) := by
  unfold keysNodup; infer_instance

/-- `POST /users` (`create_user`): rejects a duplicate username, then a
duplicate email, with HTTP 400; otherwise stores the user under the fresh
uuid `fresh_id` with creation time `now`. -/
def create_user (udb : UsersDb) (user : UserCreate) (fresh_id : String)
    (now : Nat) : Except HTTPError User × UsersDb :=
  if udb.any (fun e => e.2.username == user.username) then
    (.error ⟨400, "El nombre de usuario ya existe"⟩, udb)
  else if udb.any (fun e => e.2.email == user.email) then
    (.error ⟨400, "El email ya está registrado"⟩, udb)
  else
    let u : User :=
      { id := fresh_id, username := user.username, email := user.email,
        full_name := user.full_name, created_at := now, is_active := true }
    (.ok u, udb ++ [(fresh_id, u)])

/-- `GET /users` (`get_users`): Python slice `[skip : skip + limit]` of the
dict values; the endpoint defaults are `skip = 0`, `limit = 10`. -/
def get_users (udb : UsersDb) (skip limit : Int) : List User :=
  pySlice (udb.map Prod.snd) skip (skip + limit)

/-- `POST /posts` (`create_post`): rejects an unknown `author_id` with
HTTP 404; otherwise stores a fresh post with zero likes and views. -/
def create_post (udb : UsersDb) (pdb : PostsDb) (post : PostCreate)
    (fresh_id : String) (now : Nat) : Except HTTPError Post × PostsDb :=
  match lookup udb post.author_id with
  | none => (.error ⟨404, "Autor no encontrado"⟩, pdb)
  | some _ =>
    let p : Post :=
      { id := fresh_id, title := post.title, content := post.content,
        tags := post.tags, author_id := post.author_id,
        created_at := now, updated_at := now, likes := 0, views := 0 }
    (.ok p, pdb ++ [(fresh_id, p)])

/-- `GET /posts` (`get_posts`): optional exact tag membership and author
equality filters (a `None` or empty-string parameter is falsy in Python and
disables its filter), then the Python slice `[skip : skip + limit]`. -/
def get_posts (pdb : PostsDb) (skip limit : Int)
    (tag author_id : Option String) : List Post :=
  let posts := pdb.map Prod.snd
  let posts :=
    match tag with
    | some t => if t == "" then posts else posts.filter (fun p => p.tags.contains t)
    | none => posts
  let posts :=
    match author_id with
    | some a => if a == "" then posts else posts.filter (fun p => p.author_id == a)
    | none => posts
  pySlice posts skip (skip + limit)

/-- `GET /posts/{post_id}` (`get_post`): HTTP 404 when absent; otherwise
increments the stored view counter and returns the updated record. -/
def get_post (pdb : PostsDb) (post_id : String) :
    Except HTTPError Post × PostsDb :=
  match lookup pdb post_id with
  | none => (.error ⟨404, "Post no encontrado"⟩, pdb)
  | some p =>
    let p' := { p with views := p.views + 1 }
    (.ok p', setEntry pdb post_id p')

/-- `PUT /posts/{post_id}` (`update_post`): HTTP 404 when absent; otherwise
overwrites exactly the fields present in the body and refreshes
`updated_at` to the current time `now`. -/
def update_post (pdb : PostsDb) (post_id : String) (post_update : PostUpdate)
    (now : Nat) : Except HTTPError Post × PostsDb :=
  match lookup pdb post_id with
  | none => (.error ⟨404, "Post no encontrado"⟩, pdb)
  | some p =>
    let p' := { p with
      title := post_update.title.getD p.title,
      content := post_update.content.getD p.content,
      tags := post_update.tags.getD p.tags,
      updated_at := now }
    (.ok p', setEntry pdb post_id p')

/-- `DELETE /posts/{post_id}` (`delete_post`): HTTP 404 when absent;
otherwise removes the post and every comment whose `post_id` matches. -/
def delete_post (pdb : PostsDb) (cdb : CommentsDb) (post_id : String) :
    Except HTTPError Unit × PostsDb × CommentsDb :=
  match lookup pdb post_id with
  | none => (.error ⟨404, "Post no encontrado"⟩, pdb, cdb)
  | some _ =>
    (.ok (), eraseKey pdb post_id,
      cdb.filter (fun e => e.2.post_id != post_id))

/-- `POST /posts/{post_id}/like` (`like_post`). -/
def like_post (pdb : PostsDb) (post_id : String) :
    Except HTTPError Post × PostsDb :=
  match lookup pdb post_id with
  | none => (.error ⟨404, "Post no encontrado"⟩, pdb)
  | some p =>
    let p' := { p with likes := p.likes + 1 }
    (.ok p', setEntry pdb post_id p')

/-- Whether a post matches the already-lowercased free-text query `query`:
substring of the lowercased title, content, or any lowercased tag. -/
def matchesQuery (query : String) (p : Post) : Bool :=
  strIn query (pyLower p.title) || strIn query (pyLower p.content) ||
    p.tags.any (fun t => strIn query (pyLower t))

/-- `GET /search` (`search_posts`): case-insensitive substring search over
title, content and tags, then the Python slice `[skip : skip + limit]`. -/
def search_posts (pdb : PostsDb) (q : String) (skip limit : Int) : List Post :=
  pySlice ((pdb.map Prod.snd).filter (matchesQuery (pyLower q)))
    skip (skip + limit)

/-- The response of `GET /stats`; averages are exact rationals modelling
Python's true division, which the code guards against a zero post count. -/
structure Stats where
  total_users : Nat
  total_posts : Nat
  total_comments : Nat
  total_likes : Nat
  total_views : Nat
  average_likes_per_post : ℚ
  average_views_per_post : ℚ
deriving DecidableEq, Repr

/-- `GET /stats` (`get_stats`). -/
def get_stats (udb : UsersDb) (pdb : PostsDb) (cdb : CommentsDb) : Stats :=
  let total_posts := pdb.length
  let total_likes := (pdb.map (fun e => e.2.likes)).sum
  let total_views := (pdb.map (fun e => e.2.views)).sum
  { total_users := udb.length
    total_posts := total_posts
    total_comments := cdb.length
    total_likes := total_likes
    total_views := total_views
    average_likes_per_post :=
      if total_posts > 0 then (total_likes : ℚ) / (total_posts : ℚ) else 0
    average_views_per_post :=
      if total_posts > 0 then (total_views : ℚ) / (total_posts : ℚ) else 0 }

end BlogApi

/-! ### Helper lemmas about the dictionary model -/

namespace BlogApi

theorem lookup_cons {α : Type} (e : String × α) (rest : Db α) (k : String) :
    lookup (e :: rest) k = if e.1 == k then some e.2 else lookup rest k := by
  cases h : e.1 == k <;> simp [lookup, List.find?_cons, h]

theorem setEntry_cons {α : Type} (e : String × α) (rest : Db α) (k : String)
    (v : α) : setEntry (e :: rest) k v =
      (if e.1 == k then (e.1, v) else e) :: setEntry rest k v := by
  simp only [setEntry, List.map_cons]

theorem lookup_setEntry_self {α : Type} {db : Db α} {k : String} {p v : α}
    (h : lookup db k = some p) : lookup (setEntry db k v) k = some v := by
  induction db with
  | nil => simp [lookup] at h
  | cons e rest ih =>
    rw [setEntry_cons]
    by_cases hk : (e.1 == k) = true
    · rw [if_pos hk, lookup_cons]
      simp [hk]
    · rw [if_neg hk, lookup_cons, if_neg hk]
      rw [lookup_cons, if_neg hk] at h
      exact ih h

theorem lookup_eq_none_of_forall {α : Type} {db : Db α} {k : String}
    (h : ∀ e ∈ db, e.1 ≠ k) : lookup db k = none := by
  have hf : db.find? (fun e => e.1 == k) = none :=
    List.find?_eq_none.mpr (by intro e he; simpa using h e he)
  simp [lookup, hf]

theorem lookup_eraseKey_self {α : Type} (db : Db α) (k : String) :
    lookup (eraseKey db k) k = none := by
  apply lookup_eq_none_of_forall
  intro e he
  simpa using List.of_mem_filter he

end BlogApi

/-! ### Example fixtures used by the witnesses and counterexamples -/

namespace BlogApi

/-- An example stored user. -/
def anaUser : User :=
  { id := "u1", username := "ana", email := "ana@x.com", full_name := none,
    created_at := 0, is_active := true }

/-- A second example stored user. -/
def bobUser : User :=
  { id := "u2", username := "bob", email := "bob@x.com", full_name := none,
    created_at := 0, is_active := true }

/-- A third example stored user. -/
def camUser : User :=
  { id := "u3", username := "cam", email := "cam@x.com", full_name := none,
    created_at := 0, is_active := true }

/-- A one-user store. -/
def demoUdb : UsersDb := [("u1", anaUser)]

/-- A three-user store. -/
def threeUdb : UsersDb := [("u1", anaUser), ("u2", bobUser), ("u3", camUser)]

/-- An example stored post, tagged `"Python"` with a capital letter. -/
def helloPost : Post :=
  { id := "p1", title := "Hello World", content := "Some content here",
    tags := ["Python"], author_id := "u1", created_at := 0, updated_at := 0,
    likes := 0, views := 0 }

/-- A one-post store. -/
def demoPdb : PostsDb := [("p1", helloPost)]

/-- An example comment on `helloPost`. -/
def demoComment1 : Comment :=
  { id := "c1", content := "nice", post_id := "p1", author_id := "u1",
    created_at := 1 }

/-- A second example comment on `helloPost`. -/
def demoComment2 : Comment :=
  { id := "c2", content := "cool", post_id := "p1", author_id := "u1",
    created_at := 2 }

/-- A two-comment store, both comments on `helloPost`. -/
def demoCdb : CommentsDb := [("c1", demoComment1), ("c2", demoComment2)]

end BlogApi

/-! ### Claims -/

open BlogApi in
/-- Claim C5: creating a user whose username equals an existing user's
username, or whose email equals an existing user's email, fails with a 400
Conflict error; the username predicate is evaluated first, the two error
messages are distinguishable, and the user collection is returned
unchanged. -/
theorem blog_create_user_conflict :
    ∀ (udb : UsersDb) (user : UserCreate) (fresh_id : String) (now : Nat),
      ((∃ e ∈ udb, e.2.username = user.username) →
        create_user udb user fresh_id now =
          (.error ⟨400, "El nombre de usuario ya existe"⟩, udb))
      ∧ ((∀ e ∈ udb, e.2.username ≠ user.username) →
         (∃ e ∈ udb, e.2.email = user.email) →
        create_user udb user fresh_id now =
          (.error ⟨400, "El email ya está registrado"⟩, udb))
      ∧ "El nombre de usuario ya existe" ≠ "El email ya está registrado" := by
  intro udb user fresh_id now
  refine ⟨?_, ?_, by decide⟩
  · rintro ⟨e, he, hu⟩
    have h : udb.any (fun e => e.2.username == user.username) = true :=
      List.any_eq_true.mpr ⟨e, he, by simp [hu]⟩
    simp [create_user, h]
  · intro hno hex
    have h1 : udb.any (fun e => e.2.username == user.username) = false := by
      simp only [List.any_eq_false]
      intro e he
      simpa using hno e he
    obtain ⟨e, he, hm⟩ := hex
    have h2 : udb.any (fun e => e.2.email == user.email) = true :=
      List.any_eq_true.mpr ⟨e, he, by simp [hm]⟩
    simp [create_user, h1, h2]

open BlogApi in
/-- Claim C5 witness: creating a second `"ana"` fails with the username
conflict message and leaves the store unchanged. -/
theorem blog_create_user_conflict_witness :
    create_user demoUdb ⟨"ana", "other@x.com", none, "secret"⟩ "u9" 5 =
      (.error ⟨400, "El nombre de usuario ya existe"⟩, demoUdb) :=
  (blog_create_user_conflict demoUdb ⟨"ana", "other@x.com", none, "secret"⟩
    "u9" 5).1 ⟨("u1", anaUser), by decide, by decide⟩

open BlogApi in
/-- Claim C9: creating a post whose `author_id` is not a stored user id
fails with a 404 error and returns the post collection unchanged. -/
theorem blog_create_post_unknown_author :
    ∀ (udb : UsersDb) (pdb : PostsDb) (post : PostCreate) (fresh_id : String)
      (now : Nat), lookup udb post.author_id = none →
      create_post udb pdb post fresh_id now =
        (.error ⟨404, "Autor no encontrado"⟩, pdb) := by
  intro udb pdb post fresh_id now h
  simp [create_post, h]

open BlogApi in
/-- Claim C9 witness: creating a post by the unknown author `"ghost"`
against the one-user store fails with 404 and keeps the post store. -/
theorem blog_create_post_unknown_author_witness :
    create_post demoUdb demoPdb ⟨"Nice title", "long enough text", [], "ghost"⟩
      "p9" 7 = (.error ⟨404, "Autor no encontrado"⟩, demoPdb) :=
  blog_create_post_unknown_author demoUdb demoPdb
    ⟨"Nice title", "long enough text", [], "ghost"⟩ "p9" 7 (by decide)

open BlogApi in
/-- Claim C3: a successful `get_post` returns the stored record with its
views counter incremented by exactly 1 and every other field unchanged,
updating the store accordingly; starting from `views = 0`, three sequential
gets return `views = 1`, `2`, `3`. -/
theorem blog_get_post_increments_views :
    (∀ (pdb : PostsDb) (pid : String) (p : Post), lookup pdb pid = some p →
      get_post pdb pid = (.ok { p with views := p.views + 1 },
        setEntry pdb pid { p with views := p.views + 1 }))
    ∧ ∀ (pdb : PostsDb) (pid : String) (p : Post), lookup pdb pid = some p →
      p.views = 0 →
      ∃ pdb₁ pdb₂ pdb₃,
        get_post pdb pid = (.ok { p with views := 1 }, pdb₁) ∧
        get_post pdb₁ pid = (.ok { p with views := 2 }, pdb₂) ∧
        get_post pdb₂ pid = (.ok { p with views := 3 }, pdb₃) := by
  have step : ∀ (pdb : PostsDb) (pid : String) (p : Post),
      lookup pdb pid = some p →
      get_post pdb pid = (.ok { p with views := p.views + 1 },
        setEntry pdb pid { p with views := p.views + 1 }) := by
    intro pdb pid p h
    simp [get_post, h]
  refine ⟨step, ?_⟩
  intro pdb pid p h hv
  have h1 := step pdb pid p h
  rw [hv] at h1
  have l1 : lookup (setEntry pdb pid { p with views := 1 }) pid =
      some { p with views := 1 } := lookup_setEntry_self h
  have h2 := step _ pid { p with views := 1 } l1
  have l2 : lookup (setEntry (setEntry pdb pid { p with views := 1 }) pid
      { p with views := 2 }) pid = some { p with views := 2 } :=
    lookup_setEntry_self l1
  have h3 := step _ pid { p with views := 2 } l2
  exact ⟨_, _, _, h1, h2, h3⟩

open BlogApi in
/-- Claim C3 witness: three sequential reads of the demo post return views
1, 2 and 3. -/
theorem blog_get_post_increments_views_witness :
    ∃ pdb₁ pdb₂ pdb₃,
      get_post demoPdb "p1" = (.ok { helloPost with views := 1 }, pdb₁) ∧
      get_post pdb₁ "p1" = (.ok { helloPost with views := 2 }, pdb₂) ∧
      get_post pdb₂ "p1" = (.ok { helloPost with views := 3 }, pdb₃) :=
  blog_get_post_increments_views.2 demoPdb "p1" helloPost (by decide) (by decide)

open BlogApi in
/-- Claim C4: deleting a stored post removes it and exactly the comments
whose `post_id` matches it; afterwards neither the post id nor any cascaded
comment id can be looked up, and `get_post` on the deleted id answers the
404 `NotFound` error. -/
theorem blog_delete_post_cascades :
    ∀ (pdb : PostsDb) (cdb : CommentsDb) (pid : String) (p : Post),
      lookup pdb pid = some p →
      delete_post pdb cdb pid =
        (.ok (), eraseKey pdb pid, cdb.filter (fun e => e.2.post_id != pid))
      ∧ lookup (eraseKey pdb pid) pid = none
      ∧ (get_post (eraseKey pdb pid) pid).1 =
          .error ⟨404, "Post no encontrado"⟩
      ∧ (∀ e ∈ cdb, e.2.post_id ≠ pid →
          e ∈ cdb.filter (fun e => e.2.post_id != pid))
      ∧ ∀ cid c, keysNodup cdb → lookup cdb cid = some c → c.post_id = pid →
          lookup (cdb.filter (fun e => e.2.post_id != pid)) cid = none := by
  intro pdb cdb pid p h
  have herase := lookup_eraseKey_self pdb pid
  refine ⟨by simp [delete_post, h], herase, by simp [get_post, herase],
    ?_, ?_⟩
  · intro e he hne
    exact List.mem_filter.mpr ⟨he, by simpa using hne⟩
  · intro cid c hn hc hp
    induction cdb with
    | nil => simp [lookup] at hc
    | cons e rest ih =>
      rw [keysNodup, List.map_cons, List.nodup_cons] at hn
      rw [lookup_cons] at hc
      by_cases hk : (e.1 == cid) = true
      · rw [if_pos hk] at hc
        have hdrop : (e.2.post_id != pid) = false := by
          cases hc
          simp [hp]
        rw [List.filter_cons, hdrop]
        apply lookup_eq_none_of_forall
        intro f hf
        have hfr := List.mem_of_mem_filter hf
        intro hfk
        have he1 : e.1 = cid := by simpa using hk
        have hmem : f.1 ∈ List.map Prod.fst rest :=
          List.mem_map_of_mem Prod.fst hfr
        rw [hfk, ← he1] at hmem
        exact hn.1 hmem
      · rw [if_neg hk] at hc
        have tail := ih hn.2 hc
        rw [List.filter_cons]
        by_cases hkeep : (e.2.post_id != pid) = true
        · rw [if_pos hkeep, lookup_cons, if_neg hk]
          exact tail
        · rw [if_neg hkeep]
          exact tail

open BlogApi in
/-- Claim C4 witness: deleting the demo post removes it together with its
two comments, and both comment ids can no longer be looked up. -/
theorem blog_delete_post_cascades_witness :
    delete_post demoPdb demoCdb "p1" = (.ok (), eraseKey demoPdb "p1",
      demoCdb.filter (fun e => e.2.post_id != "p1"))
    ∧ lookup (demoCdb.filter (fun e => e.2.post_id != "p1")) "c1" = none
    ∧ lookup (demoCdb.filter (fun e => e.2.post_id != "p1")) "c2" = none :=
  ⟨(blog_delete_post_cascades demoPdb demoCdb "p1" helloPost (by decide)).1,
   (blog_delete_post_cascades demoPdb demoCdb "p1" helloPost
      (by decide)).2.2.2.2 "c1" demoComment1 (by decide) (by decide) (by decide),
   (blog_delete_post_cascades demoPdb demoCdb "p1" helloPost
      (by decide)).2.2.2.2 "c2" demoComment2 (by decide) (by decide) (by decide)⟩

open BlogApi in
/-- Claim C6: a successful `update_post` overwrites exactly the fields
present in the input and refreshes `updated_at` to the call time; updating
only the title leaves content, tags, likes, views, created_at, author_id
and id unchanged, and when the clock has not gone backwards the new
`updated_at` is at least the previous one. -/
theorem blog_update_post_frame :
    ∀ (pdb : PostsDb) (pid : String) (p : Post) (u : PostUpdate) (now : Nat),
      lookup pdb pid = some p →
      (update_post pdb pid u now =
        (.ok { p with
            title := u.title.getD p.title,
            content := u.content.getD p.content,
            tags := u.tags.getD p.tags,
            updated_at := now },
         setEntry pdb pid { p with
            title := u.title.getD p.title,
            content := u.content.getD p.content,
            tags := u.tags.getD p.tags,
            updated_at := now }))
      ∧ ∀ t : String, p.updated_at ≤ now →
          ∃ p', update_post pdb pid ⟨some t, none, none⟩ now =
              (.ok p', setEntry pdb pid p')
            ∧ p'.title = t ∧ p'.content = p.content ∧ p'.tags = p.tags
            ∧ p'.likes = p.likes ∧ p'.views = p.views
            ∧ p'.created_at = p.created_at ∧ p'.author_id = p.author_id
            ∧ p'.id = p.id ∧ p.updated_at ≤ p'.updated_at := by
  intro pdb pid p u now h
  constructor
  · simp [update_post, h]
  · intro t hle
    exact ⟨{ p with title := t, updated_at := now },
      by simp [update_post, h], rfl, rfl, rfl, rfl, rfl, rfl, rfl, rfl, hle⟩

open BlogApi in
/-- Claim C6 witness: retitling the demo post keeps all other fields and
does not decrease `updated_at`. -/
theorem blog_update_post_frame_witness :
    ∃ p', update_post demoPdb "p1" ⟨some "New Title", none, none⟩ 9 =
        (.ok p', setEntry demoPdb "p1" p')
      ∧ p'.title = "New Title" ∧ p'.content = helloPost.content
      ∧ p'.tags = helloPost.tags ∧ p'.likes = helloPost.likes
      ∧ p'.views = helloPost.views ∧ p'.created_at = helloPost.created_at
      ∧ p'.author_id = helloPost.author_id ∧ p'.id = helloPost.id
      ∧ helloPost.updated_at ≤ p'.updated_at :=
  (blog_update_post_frame demoPdb "p1" helloPost ⟨some "New Title", none, none⟩
    9 (by decide)).2 "New Title" (by decide)

open BlogApi in
/-- Claim C7: `get_stats` reports the exact sizes of the three collections,
the sums of likes and views over all posts, and averages equal to the
corresponding sum divided by the post count, with both averages equal to 0
on a store with no posts. -/
theorem blog_get_stats_correct :
    ∀ (udb : UsersDb) (pdb : PostsDb) (cdb : CommentsDb),
      (get_stats udb pdb cdb).total_users = udb.length
      ∧ (get_stats udb pdb cdb).total_posts = pdb.length
      ∧ (get_stats udb pdb cdb).total_comments = cdb.length
      ∧ (get_stats udb pdb cdb).total_likes =
          (pdb.map (fun e => e.2.likes)).sum
      ∧ (get_stats udb pdb cdb).total_views =
          (pdb.map (fun e => e.2.views)).sum
      ∧ (get_stats udb pdb cdb).average_likes_per_post =
          ((get_stats udb pdb cdb).total_likes : ℚ) /
            ((get_stats udb pdb cdb).total_posts : ℚ)
      ∧ (get_stats udb pdb cdb).average_views_per_post =
          ((get_stats udb pdb cdb).total_views : ℚ) /
            ((get_stats udb pdb cdb).total_posts : ℚ)
      ∧ (get_stats udb [] cdb).total_posts = 0
      ∧ (get_stats udb [] cdb).average_likes_per_post = 0
      ∧ (get_stats udb [] cdb).average_views_per_post = 0 := by
  intro udb pdb cdb
  have havg : ∀ s n : Nat,
      (if n > 0 then (s : ℚ) / (n : ℚ) else 0) = (s : ℚ) / (n : ℚ) := by
    intro s n
    rcases Nat.eq_zero_or_pos n with h | h
    · simp [h]
    · rw [if_pos h]
  refine ⟨rfl, rfl, rfl, rfl, rfl, havg _ _, havg _ _, rfl, ?_, ?_⟩
  · simp [get_stats]
  · simp [get_stats]

theorem strInAux_nil (l : List Char) : strInAux [] l = true := by
  induction l with
  | nil => rfl
  | cons c cs ih => simp [strInAux, List.isPrefixOf]

theorem strIn_empty_left (s : String) : strIn "" s = true :=
  strInAux_nil s.toList

open BlogApi in
/-- Claim C10: searching with the empty query matches every post, because
the case-insensitive substring test accepts the empty string on every
record, so the result is the full post sequence in insertion order sliced
by skip and limit. -/
theorem blog_search_empty_query :
    (∀ p : Post, matchesQuery (pyLower "") p = true)
    ∧ ∀ (pdb : PostsDb) (skip limit : Int),
        search_posts pdb "" skip limit =
          pySlice (pdb.map Prod.snd) skip (skip + limit) := by
  have h0 : pyLower "" = "" := rfl
  have hm : ∀ p : Post, matchesQuery (pyLower "") p = true := by
    intro p
    rw [h0]
    simp [matchesQuery, strIn_empty_left]
  refine ⟨hm, ?_⟩
  intro pdb skip limit
  rw [search_posts, List.filter_eq_self.mpr]
  intro p _
  exact hm p

theorem pyNorm_natCast (s : Nat) (len : Nat) : pyNorm (s : Int) len = min s len := by
  simp [pyNorm]

theorem pySlice_natCast (l : List α) (s t : Nat) :
    pySlice l (s : Int) ((s : Int) + (t : Int)) = (l.drop s).take t := by
  have hb : (s : Int) + (t : Int) = ((s + t : Nat) : Int) := by push_cast; ring
  rw [pySlice, hb, pyNorm_natCast, pyNorm_natCast, List.drop_take]
  rcases le_total s l.length with h | h
  · rw [min_eq_left h]
    apply List.take_eq_take.mpr
    rw [List.length_drop]
    omega
  · rw [min_eq_right h, List.drop_eq_nil_of_le h, List.drop_eq_nil_of_le le_rfl]
    simp

open BlogApi in
/-- Claim C2 counterexample: the tag filter of `get_posts` is an exact,
case-sensitive list membership test, so `tag = "python"` does not return
the stored post tagged `"Python"`, although that post's tags do contain
`"python"` under case-insensitive matching. -/
theorem blog_get_posts_tag_filter_counterexample :
    get_posts demoPdb 0 10 (some "python") none = []
    ∧ (helloPost.tags.map pyLower).contains (pyLower "python") = true
    ∧ demoPdb.map Prod.snd = [helloPost] := by
  refine ⟨by decide, by decide, by decide⟩

open BlogApi in
/-- Claim C2 (amended): for a non-empty tag string `x`, listing with
`tag = x`, `skip = 0`, `limit = 10` returns exactly the posts whose tags
list contains `x` under exact case-sensitive matching, in original
insertion order, truncated to at most 10 records (an empty tag string is
falsy in Python and disables the filter). -/
theorem blog_get_posts_tag_filter :
    ∀ (pdb : PostsDb) (x : String), x ≠ "" →
      get_posts pdb 0 10 (some x) none =
        ((pdb.map Prod.snd).filter (fun p => p.tags.contains x)).take 10 := by
  intro pdb x hx
  have hxx : (x == "") = false := by simpa using hx
  have hs := pySlice_natCast
    ((pdb.map Prod.snd).filter (fun p => p.tags.contains x)) 0 10
  simp only [Nat.cast_ofNat, Nat.cast_zero, List.drop_zero] at hs
  simpa [get_posts, hxx] using hs

open BlogApi in
/-- Claim C2 witness: with the exactly-matching tag `"Python"` the demo
post is returned. -/
theorem blog_get_posts_tag_filter_witness :
    get_posts demoPdb 0 10 (some "Python") none =
      ((demoPdb.map Prod.snd).filter
        (fun p => p.tags.contains "Python")).take 10 :=
  blog_get_posts_tag_filter demoPdb "Python" (by decide)

open BlogApi in
/-- Claim C8 counterexample: a negative `skip` does not yield an empty
sequence; Python interprets it relative to the end of the list, so
`skip = -2, limit = 10` on a three-user store returns the last two
users. -/
theorem blog_pagination_counterexample :
    get_users threeUdb (-2) 10 = [bobUser, camUser]
    ∧ get_users threeUdb (-2) 10 ≠ [] := by
  refine ⟨by decide, by decide⟩

open BlogApi in
/-- Claim C8 (amended): for nonnegative `skip` and `limit` the list
endpoints slice the value sequence to the half-open range
`[skip, skip + limit)`, and a nonnegative `skip` at least the sequence
length yields the empty sequence; a negative `skip` or `limit` is
interpreted relative to the end of the sequence as in Python slicing and
can yield a non-empty result; no value is an error.  The endpoint defaults
are `skip = 0`, `limit = 10`. -/
theorem blog_pagination_slices :
    ∀ (udb : UsersDb) (pdb : PostsDb) (skip limit : Nat),
      get_users udb (skip : Int) (limit : Int) =
        ((udb.map Prod.snd).drop skip).take limit
      ∧ (udb.length ≤ skip → get_users udb (skip : Int) (limit : Int) = [])
      ∧ get_posts pdb (skip : Int) (limit : Int) none none =
          ((pdb.map Prod.snd).drop skip).take limit := by
  intro udb pdb skip limit
  have h1 := pySlice_natCast (udb.map Prod.snd) skip limit
  have h2 := pySlice_natCast (pdb.map Prod.snd) skip limit
  refine ⟨by simpa [get_users] using h1, ?_, by simpa [get_posts] using h2⟩
  intro hs
  have hd : (udb.map Prod.snd).drop skip = [] :=
    List.drop_eq_nil_of_le (by simpa using hs)
  rw [get_users]
  rw [h1, hd, List.take_nil]

open BlogApi in
/-- Claim C8 witness: `skip = 3` on the three-user store yields the empty
list. -/
theorem blog_pagination_slices_witness :
    get_users threeUdb 3 10 = [] :=
  (blog_pagination_slices threeUdb demoPdb 3 10).2.1 (by decide)

/-! ### Uniqueness of ids in the caller-assigned-id variant -/

namespace MainApi

/-- An example user for the caller-assigned-id variant. -/
def davidUser : User := ⟨1, "david", "david@x.com"⟩

/-- A second example user. -/
def evaUser : User := ⟨2, "eva", "eva@x.com"⟩

/-- A full-replace payload whose id collides with `evaUser`'s. -/
def dupUser : User := ⟨2, "dup", "dup@x.com"⟩

theorem removeById_sublist : ∀ {db : UserDb} {uid : Int} {db' : UserDb},
    removeById db uid = some db' → List.Sublist db' db := by
  intro db
  induction db with
  | nil => intro uid db' h; simp [removeById] at h
  | cons u rest ih =>
    intro uid db' h
    rw [removeById] at h
    by_cases hu : (u.id == uid) = true
    · rw [if_pos hu] at h
      cases h
      exact List.sublist_cons_self u rest
    · rw [if_neg hu] at h
      cases hrec : removeById rest uid with
      | none => rw [hrec] at h; simp at h
      | some t' =>
        rw [hrec] at h
        obtain rfl : u :: t' = db' := by simpa using h
        exact (ih hrec).cons₂ u

theorem crear_user_nodup (db : UserDb) (u : User) (h : idsNodup db) :
    idsNodup (crear_user db u).2 := by
  rw [crear_user]
  by_cases ha : db.any (fun v => v.id == u.id) = true
  · rw [if_pos ha]
    exact h
  · rw [if_neg ha]
    show (List.map User.id (db ++ [u])).Nodup
    rw [List.map_append, List.nodup_append]
    refine ⟨h, List.nodup_singleton _, ?_⟩
    intro x hx hy
    obtain ⟨v, hv, hvx⟩ := List.mem_map.mp hx
    have hne := List.any_eq_false.mp (Bool.not_eq_true _ ▸ ha) v hv
    apply hne
    have hxy : x = u.id := by simpa using hy
    simp [hvx, hxy]

theorem eliminar_usuario_nodup (db : UserDb) (uid : Int) (h : idsNodup db) :
    idsNodup (eliminar_usuario db uid).2 := by
  rw [eliminar_usuario]
  cases hrec : removeById db uid with
  | none => exact h
  | some db' => exact h.sublist ((removeById_sublist hrec).map User.id)

theorem replaceById_mem : ∀ {db : UserDb} {uid : Int} {u : User}
    {db' : UserDb}, replaceById db uid u = some db' →
    ∀ v ∈ db', v ∈ db ∨ v = u := by
  intro db
  induction db with
  | nil => intro uid u db' h; simp [replaceById] at h
  | cons w rest ih =>
    intro uid u db' h v hv
    rw [replaceById] at h
    by_cases hw : (w.id == uid) = true
    · rw [if_pos hw] at h
      obtain rfl : u :: rest = db' := by simpa using h
      rcases List.mem_cons.mp hv with rfl | hvr
      · exact Or.inr rfl
      · exact Or.inl (List.mem_cons_of_mem w hvr)
    · rw [if_neg hw] at h
      cases hrec : replaceById rest uid u with
      | none => rw [hrec] at h; simp at h
      | some t' =>
        rw [hrec] at h
        obtain rfl : w :: t' = db' := by simpa using h
        rcases List.mem_cons.mp hv with rfl | hvt
        · exact Or.inl (List.mem_cons_self v rest)
        · rcases ih hrec v hvt with hvr | rfl
          · exact Or.inl (List.mem_cons_of_mem w hvr)
          · exact Or.inr rfl

theorem replaceById_nodup : ∀ {db : UserDb} {uid : Int} {u : User}
    {db' : UserDb}, idsNodup db → (∀ v ∈ db, v.id = u.id → v.id = uid) →
    replaceById db uid u = some db' → idsNodup db' := by
  intro db
  induction db with
  | nil => intro uid u db' _ _ h; simp [replaceById] at h
  | cons w rest ih =>
    intro uid u db' hn hcond h
    rw [idsNodup, List.map_cons, List.nodup_cons] at hn
    rw [replaceById] at h
    by_cases hw : (w.id == uid) = true
    · rw [if_pos hw] at h
      obtain rfl : u :: rest = db' := by simpa using h
      show (List.map User.id (u :: rest)).Nodup
      rw [List.map_cons, List.nodup_cons]
      refine ⟨?_, hn.2⟩
      intro hmem
      obtain ⟨v, hv, hvid⟩ := List.mem_map.mp hmem
      have hvuid : v.id = uid :=
        hcond v (List.mem_cons_of_mem w hv) hvid
      apply hn.1
      have hwid : w.id = uid := by simpa using hw
      rw [hwid, ← hvuid]
      exact List.mem_map_of_mem User.id hv
    · rw [if_neg hw] at h
      cases hrec : replaceById rest uid u with
      | none => rw [hrec] at h; simp at h
      | some t' =>
        rw [hrec] at h
        obtain rfl : w :: t' = db' := by simpa using h
        have hcond' : ∀ v ∈ rest, v.id = u.id → v.id = uid :=
          fun v hv => hcond v (List.mem_cons_of_mem w hv)
        have ht' := ih hn.2 hcond' hrec
        show (List.map User.id (w :: t')).Nodup
        rw [List.map_cons, List.nodup_cons]
        refine ⟨?_, ht'⟩
        intro hmem
        obtain ⟨v, hv, hvid⟩ := List.mem_map.mp hmem
        rcases replaceById_mem hrec v hv with hvr | rfl
        · exact hn.1 (hvid ▸ List.mem_map_of_mem User.id hvr)
        · have hwuid : w.id = uid :=
            hcond w (List.mem_cons_self w rest) hvid.symm
          simp [hwuid] at hw

theorem actualizar_usuario_nodup (db : UserDb) (uid : Int) (u : User)
    (h : idsNodup db) (hcond : ∀ v ∈ db, v.id = u.id → v.id = uid) :
    idsNodup (actualizar_usuario db uid u).2 := by
  rw [actualizar_usuario]
  cases hrec : replaceById db uid u with
  | none => exact h
  | some db' => exact replaceById_nodup h hcond hrec

theorem foldl_runOp_nodup : ∀ (ops : List Op) (db : UserDb), idsNodup db →
    (∀ op ∈ ops, op.isCreateOrDelete) → idsNodup (ops.foldl runOp db) := by
  intro ops
  induction ops with
  | nil => intro db h _; exact h
  | cons op rest ih =>
    intro db h hops
    rw [List.foldl_cons]
    refine ih (runOp db op) ?_ (fun o ho => hops o (List.mem_cons_of_mem _ ho))
    cases op with
    | create u => exact crear_user_nodup db u h
    | delete uid => exact eliminar_usuario_nodup db uid h
    | update uid u => exact (hops _ (List.mem_cons_self _ _)).elim

end MainApi

open MainApi in
/-- Claim C1 counterexample: after the successful call sequence
create `{id 1}`, create `{id 2}`, full-replace update of user 1 with a
record whose id is 2, the store holds two users with id 2, so the
uniqueness invariant is not preserved by every operation sequence. -/
theorem main_user_id_unique_counterexample :
    crear_user [] davidUser = (.ok davidUser, [davidUser])
    ∧ crear_user [davidUser] evaUser = (.ok evaUser, [davidUser, evaUser])
    ∧ actualizar_usuario [davidUser, evaUser] 1 dupUser =
        (.ok dupUser, [dupUser, evaUser])
    ∧ run [.create davidUser, .create evaUser, .update 1 dupUser] =
        [dupUser, evaUser]
    ∧ dupUser.id = evaUser.id
    ∧ ¬ idsNodup [dupUser, evaUser] := by
  refine ⟨rfl, rfl, rfl, rfl, by decide, by decide⟩

open MainApi in
/-- Claim C1 (amended): create and delete each preserve the uniqueness of
user ids, so after any sequence of create and delete operations no two
stored users share an id; the full-replace update preserves it only when
the caller-supplied record's id does not equal a different existing user's
id (otherwise it can store a duplicate, as the counterexample shows). -/
theorem main_user_ids_unique :
    (∀ (db : UserDb) (u : User), idsNodup db → idsNodup (runOp db (.create u)))
    ∧ (∀ (db : UserDb) (uid : Int), idsNodup db →
        idsNodup (runOp db (.delete uid)))
    ∧ (∀ (db : UserDb) (uid : Int) (u : User), idsNodup db →
        (∀ v ∈ db, v.id = u.id → v.id = uid) →
        idsNodup (runOp db (.update uid u)))
    ∧ ∀ ops : List Op, (∀ op ∈ ops, op.isCreateOrDelete) →
        idsNodup (run ops) :=
  ⟨fun db u h => crear_user_nodup db u h,
   fun db uid h => eliminar_usuario_nodup db uid h,
   fun db uid u h hcond => actualizar_usuario_nodup db uid u h hcond,
   fun ops hops => foldl_runOp_nodup ops [] (by simp [idsNodup]) hops⟩

open MainApi in
/-- Claim C1 witness: a concrete create/create/delete sequence keeps the
ids pairwise distinct. -/
theorem main_user_ids_unique_witness :
    idsNodup (run [.create davidUser, .create evaUser, .delete 1]) :=
  main_user_ids_unique.2.2.2 [.create davidUser, .create evaUser, .delete 1]
    (by decide)
